import Mathlib

/-!
Verification of the scraping-orchestration layer of this repository.

The repository ships the dashboard frontend, the Vercel proxy functions and
the deployment configuration; the FastAPI/Celery backend (`backend/main.py`,
holding the Job Controller, Progress Tracker and Autoscaler) is referenced by
the README, the docker-compose file and every frontend caller, but its source
is not part of this tree.  Components that live in the shipped sources
(the catch-all proxy `api/[[...path]].js`, the root proxy `api/index.js`,
`frontend-react/src/services/api.ts`, and the two React pages) are embedded
directly from their code.  The orchestration components are modelled from the
design document, as marked on each definition.
-/

namespace Scraper

/-! ## Progress Tracker -/

/-- Aggregate progress counters of one job, as reported by `Snapshot`. -/
structure Counters where
  total : Nat
  completed : Nat
  succeeded : Nat
  failed : Nat
deriving DecidableEq, Repr

/-- Modelled from the spec: the Progress Tracker's per-job record (the backend
`backend/main.py` is absent from the tree).  `urls` is the URL set returned by
Discovery (`total` is its length); `recorded` lists the outcomes accepted so
far, keyed by URL, in arrival order. -/
structure JobTrack where
  urls : List String
  recorded : List (String × Bool)
deriving DecidableEq, Repr

/-- The URLs for which an outcome has already been recorded. -/
def recordedUrls (t : JobTrack) : List String :=
  t.recorded.map Prod.fst

/-- The tracker's store: per-job records keyed by job identifier. -/
abbrev TrackerState := String → Option JobTrack

/-- The tracker before any job is initialised. -/
def emptyTracker : TrackerState := fun _ => none

/-- Error raised by `Init` when called twice for the same job. -/
inductive TrackErr where
  | alreadyInitialized
deriving DecidableEq, Repr

/-- Modelled from the spec: `Init(jobId, total)` — creates the counters when
Discovery returns the URL set; fails with `AlreadyInitialized` if called twice
for the same job. -/
def initJob (j : String) (urls : List String) (s : TrackerState) :
    Except TrackErr TrackerState :=
  match s j with
  | some _ => .error .alreadyInitialized
  | none => .ok (fun j' => if j' = j then some ⟨urls, []⟩ else s j')

/-- Modelled from the spec: `RecordOutcome(jobId, url, success)` — ignored,
not an error, if this exact URL has already been recorded for this job; an
outcome is only accepted for an initialised job and for a discovered URL
(a job's `total` is set before any `completed` increment is accepted). -/
def recordOutcome (j url : String) (b : Bool) (s : TrackerState) : TrackerState :=
  match s j with
  | none => s
  | some t =>
      if url ∈ t.urls ∧ url ∉ recordedUrls t then
        fun j' => if j' = j then some ⟨t.urls, t.recorded ++ [(url, b)]⟩ else s j'
      else s

/-- A tracker operation: one `Init` or one `RecordOutcome` call. -/
inductive TrackOp where
  | init (jobId : String) (urls : List String)
  | record (jobId : String) (url : String) (success : Bool)

/-- Apply one tracker operation; a rejected `Init` leaves the store unchanged. -/
def applyOp (op : TrackOp) (s : TrackerState) : TrackerState :=
  match op with
  | .init j urls =>
      match initJob j urls s with
      | .ok s' => s'
      | .error _ => s
  | .record j url b => recordOutcome j url b s

/-- The tracker state after a sequence of operations, starting empty. -/
def execOps (ops : List TrackOp) : TrackerState :=
  ops.foldl (fun s op => applyOp op s) emptyTracker

/-- The counters derived from one job record. -/
def countersOf (t : JobTrack) : Counters :=
  { total := t.urls.length
  , completed := t.recorded.length
  , succeeded := (t.recorded.filter (fun p => p.2)).length
  , failed := (t.recorded.filter (fun p => !p.2)).length }

/-- Modelled from the spec: `Snapshot(jobId) → ProgressCounters`. -/
def snapshot (j : String) (s : TrackerState) : Option Counters :=
  (s j).map countersOf

/-- Structural invariant of the tracker store: each job records every URL at
most once, and only URLs produced by Discovery for that job. -/
def TrackerInv (s : TrackerState) : Prop :=
  ∀ j t, s j = some t → (recordedUrls t).Nodup ∧ ∀ p ∈ t.recorded, p.1 ∈ t.urls

/-! ## Job Controller -/

/-- Lifecycle status of a job. -/
inductive JStatus where
  | pending
  | running
  | paused
  | completed
  | failed
  | cancelled
deriving DecidableEq, Repr

/-- A job record held by the controller. -/
structure JobRec where
  status : JStatus
  urls : List String
deriving DecidableEq, Repr

/-- The controller's store of job records keyed by job identifier. -/
abbrev CtrlState := String → Option JobRec

/-- The controller before any submission. -/
def emptyCtrl : CtrlState := fun _ => none

/-- Modelled from the spec: `Submit(domains) → jobId` (the backend
`backend/main.py` is absent from the tree).  Discovery is consumed once at
submission; on `DiscoveryError` the submission fails synchronously and no job
record is created.  On success the job starts dispatching (`RUNNING`), except
that an empty discovery result completes immediately. -/
def submit (jobId : String) (discovery : Except String (List String)) (s : CtrlState) :
    Except String Unit × CtrlState :=
  match discovery with
  | .error e => (.error e, s)
  | .ok urls =>
      (.ok (),
       fun j' =>
         if j' = jobId then
           some ⟨if urls.isEmpty then .completed else .running, urls⟩
         else s j')

/-- A controller operation. -/
inductive CtrlOp where
  | submit (jobId : String) (discovery : Except String (List String))
  | pause (jobId : String)
  | resume (jobId : String)
  | cancel (jobId : String)
  | finish (jobId : String)

/-- Replace the record of one job. -/
def setJob (j : String) (r : JobRec) (s : CtrlState) : CtrlState :=
  fun j' => if j' = j then some r else s j'

/-- Modelled from the spec: the controller state machine.  `pause` suspends a
running job, `resume` returns a paused job to running, `cancel` moves any
non-terminal job to `CANCELLED` (idempotent), and `finish` records
`completed == total` while `RUNNING`, reaching `COMPLETED`. -/
def applyCtrl (op : CtrlOp) (s : CtrlState) : CtrlState :=
  match op with
  | .submit j d => (submit j d s).2
  | .pause j =>
      match s j with
      | some r => if r.status = .running then setJob j ⟨.paused, r.urls⟩ s else s
      | none => s
  | .resume j =>
      match s j with
      | some r => if r.status = .paused then setJob j ⟨.running, r.urls⟩ s else s
      | none => s
  | .cancel j =>
      match s j with
      | some r =>
          if r.status = .pending ∨ r.status = .running ∨ r.status = .paused then
            setJob j ⟨.cancelled, r.urls⟩ s
          else s
      | none => s
  | .finish j =>
      match s j with
      | some r => if r.status = .running then setJob j ⟨.completed, r.urls⟩ s else s
      | none => s

/-- The controller state after a sequence of operations, starting empty. -/
def execCtrl (ops : List CtrlOp) : CtrlState :=
  ops.foldl (fun s op => applyCtrl op s) emptyCtrl

/-- No job held by the controller is in the `FAILED` status. -/
def NoFailed (s : CtrlState) : Prop :=
  ∀ j r, s j = some r → r.status ≠ .failed

/-! ## Dispatch Layer -/

/-- Dispatch-relevant job status: dispatching runs or is suspended. -/
inductive DStatus where
  | running
  | paused
deriving DecidableEq, Repr

/-- Modelled from the spec: the Dispatch Layer's view of one job.  `pending`
are the undispatched URLs in discovery order, `inflight` the
dispatched-but-incomplete ones, `done` the recorded outcomes. -/
structure DispatchState where
  status : DStatus
  pending : List String
  inflight : List String
  done : List (String × Bool)
deriving DecidableEq, Repr

/-- A dispatch-loop event: issue the next URL, finish the oldest in-flight
call with an outcome, or observe a pause or resume transition. -/
inductive DEvent where
  | dispatch
  | complete (success : Bool)
  | pause
  | resume

/-- Modelled from the spec: one dispatch-loop step.  Before issuing each URL
the loop checks the job status and suspends while `PAUSED`; in-flight calls
finish naturally regardless of status and their outcomes are recorded. -/
def dstep (s : DispatchState) : DEvent → DispatchState
  | .dispatch =>
      match s.status, s.pending with
      | .running, u :: rest => { s with pending := rest, inflight := s.inflight ++ [u] }
      | _, _ => s
  | .complete b =>
      match s.inflight with
      | u :: rest => { s with inflight := rest, done := s.done ++ [(u, b)] }
      | [] => s
  | .pause =>
      match s.status with
      | .running => { s with status := .paused }
      | .paused => s
  | .resume =>
      match s.status with
      | .paused => { s with status := .running }
      | .running => s

/-- Run the dispatch loop to completion over a list of per-URL outcomes:
each iteration issues the next URL and records one finished call. -/
def runSeq (s : DispatchState) (outs : List Bool) : DispatchState :=
  outs.foldl (fun s b => dstep (dstep s .dispatch) (.complete b)) s

/-- The counters induced by a dispatch state (`total` counts every URL of the
job, dispatched or not). -/
def dispatchCounters (s : DispatchState) : Counters :=
  { total := s.pending.length + s.inflight.length + s.done.length
  , completed := s.done.length
  , succeeded := (s.done.filter (fun p => p.2)).length
  , failed := (s.done.filter (fun p => !p.2)).length }

/-! ## Autoscaler -/

/-- Modelled from the spec: `desired = A * ratio`, with the configured
floor and ceiling applied (the Autoscaler lives in the absent backend;
`src/README.md` documents five worker processes per active job). -/
def desiredWorkers (active wpj floorW ceilW : Nat) : Nat :=
  min ceilW (max floorW (active * wpj))

/-- A scaling request issued against the execution environment. -/
inductive ScaleReq where
  | start (n : Nat)
  | stop (n : Nat)
  | noop
deriving DecidableEq, Repr

/-- Modelled from the spec: one reconciliation tick — compare the desired
count to the running count `r` and request the difference be started or
stopped; a level-triggered reconciler with no persistent state. -/
def tick (active wpj floorW ceilW r : Nat) : ScaleReq :=
  if r < desiredWorkers active wpj floorW ceilW then
    .start (desiredWorkers active wpj floorW ceilW - r)
  else if desiredWorkers active wpj floorW ceilW < r then
    .stop (r - desiredWorkers active wpj floorW ceilW)
  else .noop

/-- The running worker count after a scaling request takes effect. -/
def applyScale (r : Nat) : ScaleReq → Nat
  | .start n => r + n
  | .stop n => r - n
  | .noop => r

/-! ## Percent reporting (spec §3/§8 versus the shipped frontend) -/

/-- Modelled from the spec: the percent string reported by `GetStatus`; a job
submitted with `total = 0` reports `100%`, not a division error. -/
def reportedPercent (completed total : Nat) : String :=
  if total = 0 then "100%" else toString (completed * 100 / total) ++ "%"

/-- Modelled from the spec: the data-model derived value
`percent = completed / total`, defined as `0` when `total = 0`. -/
def percentDataModel (completed total : Nat) : ℚ :=
  if total = 0 then 0 else (completed : ℚ) / (total : ℚ)

/-- The progress object of the React dashboard
(`frontend-react/src/pages`, `JobInfo.progress`). -/
structure ProgressData where
  total : Nat
  completed : Nat
  success : Nat
  failed : Nat
  percent : String
deriving DecidableEq, Repr

/-- `UnifiedScraperPage`'s progress-bar value:
`job.progress.total ? (job.progress.completed / job.progress.total) * 100 : 0`. -/
def progressBarValue (p : ProgressData) : ℚ :=
  if p.total = 0 then 0 else (p.completed : ℚ) / (p.total : ℚ) * 100

/-- `calculateSuccessRate` from the jobs page: returns `0` when there is no
progress object or `total` is `0`, else `success / total * 100`. -/
def calculateSuccessRate (progress : Option ProgressData) : ℚ :=
  match progress with
  | none => 0
  | some p => if p.total = 0 then 0 else (p.success : ℚ) / (p.total : ℚ) * 100

/-! ## Vercel proxy functions (`api/[[...path]].js`, `api/index.js`) -/

/-- A response obtained from the scraping backend. -/
structure Upstream where
  httpStatus : Nat
  contentTypeJson : Bool
  body : String
deriving DecidableEq, Repr

/-- The reply the proxy sends to the client: its HTTP status, the `status`
and `message` fields of a JSON body built by the proxy itself, and the
passed-through upstream body otherwise. -/
structure ProxyReply where
  httpStatus : Nat
  statusField : Option String
  messageField : Option String
  body : Option String
deriving DecidableEq, Repr

/-- The message sent when `SCRAPER_API_URL` is not configured. -/
def configMessage : String :=
  "SCRAPER_API_URL not configured. Please set this environment variable in your Vercel project settings."

/-- The timeout, in milliseconds, armed around each fetch attempt of
`fetchWithRetry` (`setTimeout(() => controller.abort(), 10000)`). -/
def timeoutMs : Nat := 10000

/-- `fetchWithRetry(url, options, retries = 2)` from `api/[[...path]].js`:
attempt the fetch; on success return the response, on failure rethrow when
the budget is exhausted and otherwise retry with `retries - 1`.  The oracle
gives each attempt's outcome, indexed by attempt number. -/
def fetchWithRetry (oracle : Nat → Except String Upstream) (retries i : Nat) :
    Except String Upstream :=
  match oracle i with
  | .ok r => .ok r
  | .error e =>
      match retries with
      | 0 => .error e
      | n + 1 => fetchWithRetry oracle n (i + 1)

/-- The number of fetch attempts `fetchWithRetry` performs: one per call plus
one per retry taken (a retry happens only after a failed attempt with budget
left). -/
def fetchAttempts (oracle : Nat → Except String Upstream) (retries i : Nat) : Nat :=
  match retries with
  | 0 => 1
  | n + 1 =>
      match oracle i with
      | .ok _ => 1
      | .error _ => fetchAttempts oracle n (i + 1) + 1

/-- The catch-all proxy handler of `api/[[...path]].js`: with no backend URL
it replies 200 with the configuration message; otherwise it forwards the
request through `fetchWithRetry` (default budget, 2 retries), mirrors the
upstream status on success, and replies 200 with `Unable to reach backend`
when every attempt threw. -/
def catchAllHandler (backendUrl : Option String)
    (oracle : Nat → Except String Upstream) : ProxyReply :=
  match backendUrl with
  | none => ⟨200, some "error", some configMessage, none⟩
  | some _ =>
      match fetchWithRetry oracle 2 0 with
      | .ok r => ⟨r.httpStatus, none, none, some r.body⟩
      | .error _ => ⟨200, some "error", some "Unable to reach backend", none⟩

/-- The root proxy handler of `api/index.js`: with no backend URL it replies
200 with `status: ok` and the configuration message; on a fetch error it
replies 200 with `Unable to reach backend`; otherwise it mirrors the
upstream status. -/
def indexHandler (backendUrl : Option String)
    (fetchRes : Except String Upstream) : ProxyReply :=
  match backendUrl with
  | none => ⟨200, some "ok", some configMessage, none⟩
  | some _ =>
      match fetchRes with
      | .ok r => ⟨r.httpStatus, none, none, some r.body⟩
      | .error _ => ⟨200, some "error", some "Unable to reach backend", none⟩

/-! ## `apiService.startScraping` (`frontend-react/src/services/api.ts`) -/

/-- The JSON body `startScraping` receives; each field may be absent. -/
structure RespData where
  task_id : Option String
  message : Option String
  error : Option String
deriving DecidableEq, Repr

/-- JavaScript truthiness of an optional string field: present and
non-empty. -/
def jsTruthy (o : Option String) : Bool :=
  match o with
  | some s => !s.isEmpty
  | none => false

/-- JavaScript `a || b` over an optional string: `b` when `a` is absent or
empty. -/
def jsOr (o : Option String) (dflt : String) : String :=
  match o with
  | some s => if s.isEmpty then dflt else s
  | none => dflt

/-- The fixed fallback message of `startScraping`. -/
def defaultStartError : String := "SCRAPER_API_URL not configured"

/-- `apiService.startScraping`: resolve with the data when `data?.task_id` is
truthy, else throw `new Error(data?.message || data?.error || default)`. -/
def startScraping (data : RespData) : Except String RespData :=
  if jsTruthy data.task_id then .ok data
  else .error (jsOr data.message (jsOr data.error defaultStartError))

/-! ## Progress Tracker lemmas -/

theorem length_filter_bool (l : List (String × Bool)) :
    (l.filter (fun p => p.2)).length + (l.filter (fun p => !p.2)).length = l.length := by
  induction l with
  | nil => rfl
  | cons a l ih =>
      cases ha : a.2 <;> simp [List.filter_cons, ha] <;> omega

theorem trackerInv_empty : TrackerInv emptyTracker := by
  intro j t h
  simp [emptyTracker] at h

theorem trackerInv_apply (op : TrackOp) (s : TrackerState) (hs : TrackerInv s) :
    TrackerInv (applyOp op s) := by
  intro j t h
  cases op with
  | init j0 urls =>
      cases hs0 : s j0 with
      | some t0 =>
          simp only [applyOp, initJob, hs0] at h
          exact hs _ t h
      | none =>
          simp only [applyOp, initJob, hs0] at h
          by_cases hj : j = j0
          · rw [if_pos hj] at h
            cases h
            exact ⟨by simp [recordedUrls], by simp⟩
          · rw [if_neg hj] at h
            exact hs _ t h
  | record j0 url b =>
      cases hs0 : s j0 with
      | none =>
          simp only [applyOp, recordOutcome, hs0] at h
          exact hs _ t h
      | some t0 =>
          by_cases hc : url ∈ t0.urls ∧ url ∉ recordedUrls t0
          · simp only [applyOp, recordOutcome, hs0, if_pos hc] at h
            by_cases hj : j = j0
            · rw [if_pos hj] at h
              cases h
              obtain ⟨hnd, hsub⟩ := hs _ t0 hs0
              have hnd' : (t0.recorded.map Prod.fst).Nodup := hnd
              have hnotin : url ∉ t0.recorded.map Prod.fst := hc.2
              refine ⟨?_, ?_⟩
              · simp only [recordedUrls, List.map_append, List.map_cons, List.map_nil]
                simp [List.nodup_append, hnd', hnotin]
              · intro p hp
                rcases List.mem_append.1 hp with hp | hp
                · exact hsub p hp
                · simp only [List.mem_singleton] at hp
                  subst hp
                  exact hc.1
            · rw [if_neg hj] at h
              exact hs _ t h
          · simp only [applyOp, recordOutcome, hs0, if_neg hc] at h
            exact hs _ t h

theorem trackerInv_foldl (more : List TrackOp) (s : TrackerState) (hs : TrackerInv s) :
    TrackerInv (more.foldl (fun s op => applyOp op s) s) := by
  induction more generalizing s with
  | nil => exact hs
  | cons op rest ih => exact ih (applyOp op s) (trackerInv_apply op s hs)

theorem trackerInv_exec (ops : List TrackOp) : TrackerInv (execOps ops) :=
  trackerInv_foldl ops emptyTracker trackerInv_empty

theorem applyOp_mono (op : TrackOp) (s : TrackerState) (j : String) (t : JobTrack)
    (h : s j = some t) :
    ∃ t', applyOp op s j = some t' ∧ t'.urls = t.urls ∧
      ∃ ext, t'.recorded = t.recorded ++ ext := by
  cases op with
  | init j0 urls =>
      cases hs0 : s j0 with
      | some t0 =>
          refine ⟨t, ?_, rfl, [], (List.append_nil _).symm⟩
          simp only [applyOp, initJob, hs0]
          exact h
      | none =>
          by_cases hj : j = j0
          · subst hj
            rw [hs0] at h
            cases h
          · refine ⟨t, ?_, rfl, [], (List.append_nil _).symm⟩
            simp only [applyOp, initJob, hs0]
            rw [if_neg hj]
            exact h
  | record j0 url b =>
      cases hs0 : s j0 with
      | none =>
          refine ⟨t, ?_, rfl, [], (List.append_nil _).symm⟩
          simp only [applyOp, recordOutcome, hs0]
          exact h
      | some t0 =>
          by_cases hc : url ∈ t0.urls ∧ url ∉ recordedUrls t0
          · by_cases hj : j = j0
            · subst hj
              rw [hs0] at h
              injection h with h
              subst h
              refine ⟨⟨t0.urls, t0.recorded ++ [(url, b)]⟩, ?_, rfl, [(url, b)], rfl⟩
              simp [applyOp, recordOutcome, hs0, hc]
            · refine ⟨t, ?_, rfl, [], (List.append_nil _).symm⟩
              simp only [applyOp, recordOutcome, hs0, if_pos hc]
              rw [if_neg hj]
              exact h
          · refine ⟨t, ?_, rfl, [], (List.append_nil _).symm⟩
            simp only [applyOp, recordOutcome, hs0, if_neg hc]
            exact h

theorem foldl_mono (more : List TrackOp) (s : TrackerState) (j : String) (t : JobTrack)
    (h : s j = some t) :
    ∃ t', (more.foldl (fun s op => applyOp op s) s) j = some t' ∧ t'.urls = t.urls ∧
      ∃ ext, t'.recorded = t.recorded ++ ext := by
  induction more generalizing s t with
  | nil => exact ⟨t, h, rfl, [], (List.append_nil _).symm⟩
  | cons op rest ih =>
      obtain ⟨t1, h1, hu1, ext1, hr1⟩ := applyOp_mono op s j t h
      obtain ⟨t2, h2, hu2, ext2, hr2⟩ := ih (applyOp op s) t1 h1
      exact ⟨t2, h2, hu2.trans hu1, ext1 ++ ext2, by rw [hr2, hr1, List.append_assoc]⟩

theorem countersOf_consistent (t : JobTrack) (hnd : (recordedUrls t).Nodup)
    (hsub : ∀ p ∈ t.recorded, p.1 ∈ t.urls) :
    (countersOf t).succeeded + (countersOf t).failed = (countersOf t).completed ∧
      (countersOf t).completed ≤ (countersOf t).total := by
  constructor
  · exact length_filter_bool t.recorded
  · have hsub' : recordedUrls t ⊆ t.urls := by
      intro u hu
      obtain ⟨p, hp, rfl⟩ := List.mem_map.1 hu
      exact hsub p hp
    have hlen : (recordedUrls t).length ≤ t.urls.length :=
      (hnd.subperm hsub').length_le
    simpa [countersOf, recordedUrls] using hlen

theorem countersOf_mono (t t' : JobTrack) (hu : t'.urls = t.urls)
    (ext : List (String × Bool)) (hr : t'.recorded = t.recorded ++ ext) :
    (countersOf t).total ≤ (countersOf t').total ∧
      (countersOf t).completed ≤ (countersOf t').completed ∧
      (countersOf t).succeeded ≤ (countersOf t').succeeded ∧
      (countersOf t).failed ≤ (countersOf t').failed := by
  simp only [countersOf, hu, hr, List.filter_append, List.length_append]
  exact ⟨le_rfl, Nat.le_add_right _ _, Nat.le_add_right _ _, Nat.le_add_right _ _⟩

/-- C1: for every job and at every observed `Snapshot` of its
`ProgressCounters`, `succeeded + failed = completed ≤ total` holds, and each
of `total`, `completed`, `succeeded`, `failed` is monotonically
non-decreasing over the job's lifetime (any further operation sequence). -/
theorem progress_counters_invariant_monotone (ops more : List TrackOp) (j : String)
    (c : Counters) (h : snapshot j (execOps ops) = some c) :
    (c.succeeded + c.failed = c.completed ∧ c.completed ≤ c.total) ∧
    ∃ c', snapshot j (execOps (ops ++ more)) = some c' ∧
      c.total ≤ c'.total ∧ c.completed ≤ c'.completed ∧
      c.succeeded ≤ c'.succeeded ∧ c.failed ≤ c'.failed := by
  obtain ⟨t, ht, rfl⟩ := Option.map_eq_some'.1 h
  obtain ⟨hnd, hsub⟩ := trackerInv_exec ops j t ht
  refine ⟨countersOf_consistent t hnd hsub, ?_⟩
  have hexec : execOps (ops ++ more) = more.foldl (fun s op => applyOp op s) (execOps ops) := by
    simp [execOps, List.foldl_append]
  obtain ⟨t', ht', hu, ext, hr⟩ := foldl_mono more (execOps ops) j t ht
  obtain ⟨m1, m2, m3, m4⟩ := countersOf_mono t t' hu ext hr
  exact ⟨countersOf t', by rw [hexec]; simp [snapshot, ht'], m1, m2, m3, m4⟩

/-- C1 witness: a concrete two-URL job after one recorded outcome satisfies
the invariant, and recording the second outcome only grows the counters. -/
theorem progress_counters_witness :
    ((Counters.mk 2 1 1 0).succeeded + (Counters.mk 2 1 1 0).failed
        = (Counters.mk 2 1 1 0).completed ∧
      (Counters.mk 2 1 1 0).completed ≤ (Counters.mk 2 1 1 0).total) ∧
    ∃ c', snapshot "j"
        (execOps ([.init "j" ["u", "v"], .record "j" "u" true] ++ [.record "j" "v" false]))
        = some c' ∧
      (Counters.mk 2 1 1 0).total ≤ c'.total ∧
      (Counters.mk 2 1 1 0).completed ≤ c'.completed ∧
      (Counters.mk 2 1 1 0).succeeded ≤ c'.succeeded ∧
      (Counters.mk 2 1 1 0).failed ≤ c'.failed :=
  progress_counters_invariant_monotone [.init "j" ["u", "v"], .record "j" "u" true]
    [.record "j" "v" false] "j" (Counters.mk 2 1 1 0) (by decide)

/-- C2: recording the same URL outcome a second time for one job is ignored
(not an error — `recordOutcome` has no error channel) and leaves the whole
store, hence every counter of the job, unchanged after the first recording. -/
theorem recordOutcome_idempotent (s : TrackerState) (j url : String) (b b' : Bool) :
    recordOutcome j url b' (recordOutcome j url b s) = recordOutcome j url b s ∧
    snapshot j (recordOutcome j url b' (recordOutcome j url b s))
      = snapshot j (recordOutcome j url b s) := by
  have key : recordOutcome j url b' (recordOutcome j url b s) = recordOutcome j url b s := by
    cases hs0 : s j with
    | none =>
        have e1 : recordOutcome j url b s = s := by
          simp [recordOutcome, hs0]
        rw [e1]
        simp [recordOutcome, hs0]
    | some t =>
        by_cases hc : url ∈ t.urls ∧ url ∉ recordedUrls t
        · have e1 : recordOutcome j url b s
              = fun j' => if j' = j then some ⟨t.urls, t.recorded ++ [(url, b)]⟩ else s j' := by
            simp [recordOutcome, hs0, if_pos hc]
          rw [e1]
          have hmem : url ∈ recordedUrls ⟨t.urls, t.recorded ++ [(url, b)]⟩ := by
            simp [recordedUrls]
          simp [recordOutcome, hmem]
        · have e1 : recordOutcome j url b s = s := by
            simp [recordOutcome, hs0, if_neg hc]
          rw [e1]
          simp [recordOutcome, hs0, if_neg hc]
  exact ⟨key, by rw [key]⟩

/-! ## Job Controller lemmas -/

theorem noFailed_empty : NoFailed emptyCtrl := by
  intro j r h
  simp [emptyCtrl] at h

theorem noFailed_setJob (j0 : String) (r0 : JobRec) (s : CtrlState) (hs : NoFailed s)
    (hr : r0.status ≠ .failed) : NoFailed (setJob j0 r0 s) := by
  intro j r h
  simp only [setJob] at h
  by_cases hj : j = j0
  · rw [if_pos hj] at h
    cases h
    exact hr
  · rw [if_neg hj] at h
    exact hs _ _ h

theorem noFailed_apply (op : CtrlOp) (s : CtrlState) (hs : NoFailed s) :
    NoFailed (applyCtrl op s) := by
  cases op with
  | submit j0 d =>
      cases d with
      | error e => exact hs
      | ok urls =>
          intro j r h
          simp only [applyCtrl, submit] at h
          by_cases hj : j = j0
          · rw [if_pos hj] at h
            cases h
            cases hurls : urls.isEmpty <;> simp [hurls]
          · rw [if_neg hj] at h
            exact hs _ _ h
  | pause j0 =>
      cases hs0 : s j0 with
      | none =>
          intro j r h
          simp only [applyCtrl, hs0] at h
          exact hs _ _ h
      | some r0 =>
          by_cases hr0 : r0.status = .running
          · intro j r h
            simp only [applyCtrl, hs0, if_pos hr0] at h
            exact noFailed_setJob j0 ⟨.paused, r0.urls⟩ s hs (by simp) j r h
          · intro j r h
            simp only [applyCtrl, hs0, if_neg hr0] at h
            exact hs _ _ h
  | resume j0 =>
      cases hs0 : s j0 with
      | none =>
          intro j r h
          simp only [applyCtrl, hs0] at h
          exact hs _ _ h
      | some r0 =>
          by_cases hr0 : r0.status = .paused
          · intro j r h
            simp only [applyCtrl, hs0, if_pos hr0] at h
            exact noFailed_setJob j0 ⟨.running, r0.urls⟩ s hs (by simp) j r h
          · intro j r h
            simp only [applyCtrl, hs0, if_neg hr0] at h
            exact hs _ _ h
  | cancel j0 =>
      cases hs0 : s j0 with
      | none =>
          intro j r h
          simp only [applyCtrl, hs0] at h
          exact hs _ _ h
      | some r0 =>
          by_cases hr0 : r0.status = .pending ∨ r0.status = .running ∨ r0.status = .paused
          · intro j r h
            simp only [applyCtrl, hs0, if_pos hr0] at h
            exact noFailed_setJob j0 ⟨.cancelled, r0.urls⟩ s hs (by simp) j r h
          · intro j r h
            simp only [applyCtrl, hs0, if_neg hr0] at h
            exact hs _ _ h
  | finish j0 =>
      cases hs0 : s j0 with
      | none =>
          intro j r h
          simp only [applyCtrl, hs0] at h
          exact hs _ _ h
      | some r0 =>
          by_cases hr0 : r0.status = .running
          · intro j r h
            simp only [applyCtrl, hs0, if_pos hr0] at h
            exact noFailed_setJob j0 ⟨.completed, r0.urls⟩ s hs (by simp) j r h
          · intro j r h
            simp only [applyCtrl, hs0, if_neg hr0] at h
            exact hs _ _ h

theorem noFailed_exec (ops : List CtrlOp) : NoFailed (execCtrl ops) := by
  have key : ∀ s, NoFailed s → NoFailed (ops.foldl (fun s op => applyCtrl op s) s) := by
    induction ops with
    | nil => exact fun s hs => hs
    | cons op rest ih => exact fun s hs => ih (applyCtrl op s) (noFailed_apply op s hs)
  exact key emptyCtrl noFailed_empty

/-- C3: a job whose Discovery returns an empty URL set transitions immediately
to `COMPLETED` and its reported percent is the string `100%` with no division
error — while the §3 data-model percent (`completed / total`, defined as 0 at
`total = 0`) and the shipped frontend renderers (`UnifiedScraperPage`'s
progress-bar value and `calculateSuccessRate`) all yield 0 for the same job,
exhibiting the claimed tension. -/
theorem empty_discovery_completed_vs_zero_percent :
    (submit "j" (.ok []) emptyCtrl).2 "j" = some ⟨.completed, []⟩ ∧
    reportedPercent 0 0 = "100%" ∧
    percentDataModel 0 0 = 0 ∧
    progressBarValue ⟨0, 0, 0, 0, "100%"⟩ = 0 ∧
    calculateSuccessRate (some ⟨0, 0, 0, 0, "100%"⟩) = 0 ∧
    reportedPercent 0 0 ≠ "0%" :=
  ⟨rfl, rfl, rfl, rfl, rfl, by decide⟩

/-- C4: when the Discovery adapter errors, `Submit` fails synchronously with
the `DiscoveryError` reason and leaves the controller store exactly as it was
(no job record, no partial state); consequently, in this model of the spec's
submission semantics the `FAILED` status is unreachable — no operation
sequence ever yields a job whose status is `FAILED`, the claimed tension with
the state machine's `FAILED`-on-Discovery-failure transition. -/
theorem submit_atomic_on_discovery_error :
    (∀ jobId e s, submit jobId (.error e) s = (.error e, s)) ∧
    (∀ ops j r, execCtrl ops j = some r → r.status ≠ .failed) :=
  ⟨fun _ _ _ => rfl, fun ops j r h => noFailed_exec ops j r h⟩

/-- C4 witness: a failing discovery for a concrete submission returns the
error and the unchanged empty store, and a concretely reachable job is not
`FAILED`. -/
theorem submit_atomic_witness :
    submit "j" (.error "boom") emptyCtrl = (.error "boom", emptyCtrl) ∧
    (JobRec.mk .running ["u"]).status ≠ .failed :=
  ⟨submit_atomic_on_discovery_error.1 "j" "boom" emptyCtrl,
   submit_atomic_on_discovery_error.2 [.submit "j" (.ok ["u"])] "j"
     (JobRec.mk .running ["u"]) (by decide)⟩

/-! ## Dispatch Layer lemmas -/

theorem dstatus_dispatch (s : DispatchState) : (dstep s .dispatch).status = s.status := by
  obtain ⟨st, p, i, d⟩ := s
  cases st <;> cases p <;> rfl

theorem dstatus_complete (s : DispatchState) (b : Bool) :
    (dstep s (.complete b)).status = s.status := by
  obtain ⟨st, p, i, d⟩ := s
  cases i <;> rfl

theorem runSeq_status (s : DispatchState) (outs : List Bool) :
    (runSeq s outs).status = s.status := by
  induction outs generalizing s with
  | nil => rfl
  | cons b rest ih =>
      show (runSeq (dstep (dstep s .dispatch) (.complete b)) rest).status = s.status
      rw [ih, dstatus_complete, dstatus_dispatch]

theorem runSeq_append (s : DispatchState) (o1 o2 : List Bool) :
    runSeq s (o1 ++ o2) = runSeq (runSeq s o1) o2 := by
  simp [runSeq, List.foldl_append]

theorem paused_iteration (t : DispatchState) (h : t.status = .running) (b : Bool) :
    dstep (dstep (dstep (dstep t .dispatch) .pause) (.complete b)) .resume
      = dstep (dstep t .dispatch) (.complete b) := by
  obtain ⟨st, p, i, d⟩ := t
  obtain rfl : st = .running := h
  cases p with
  | nil => cases i <;> rfl
  | cons u rest => cases i <;> rfl

theorem dispatch_blocked_when_paused (t : DispatchState) (h : t.status = .paused) :
    dstep t .dispatch = t := by
  obtain ⟨st, p, i, d⟩ := t
  obtain rfl : st = .paused := h
  cases p <;> rfl

/-- C5: pausing a running job and resuming it reaches exactly the same final
dispatch state — hence the same terminal counters — as the equivalent run
without pausing; while paused, no new URL is issued (dispatch is a no-op), and
an already-dispatched URL finishing during the pause is recorded once, never
re-issued.  The paused run issues one URL, pauses, lets that in-flight call
land, resumes, and continues with the remaining outcomes. -/
theorem pause_resume_same_terminal_counters (s : DispatchState)
    (h : s.status = .running) (o1 o2 : List Bool) (b : Bool) :
    (∀ t : DispatchState, t.status = .paused → dstep t .dispatch = t) ∧
    runSeq (dstep (dstep (dstep (dstep (runSeq s o1) .dispatch) .pause)
        (.complete b)) .resume) o2
      = runSeq s (o1 ++ b :: o2) ∧
    dispatchCounters (runSeq (dstep (dstep (dstep (dstep (runSeq s o1) .dispatch) .pause)
        (.complete b)) .resume) o2)
      = dispatchCounters (runSeq s (o1 ++ b :: o2)) := by
  have h1 : (runSeq s o1).status = .running := by rw [runSeq_status]; exact h
  have hkey : runSeq (dstep (dstep (dstep (dstep (runSeq s o1) .dispatch) .pause)
      (.complete b)) .resume) o2 = runSeq s (o1 ++ b :: o2) := by
    rw [runSeq_append, paused_iteration _ h1 b]
    rfl
  exact ⟨fun t ht => dispatch_blocked_when_paused t ht, hkey, by rw [hkey]⟩

/-- C5 witness: a concrete two-URL job, paused after its first URL is issued
and resumed after that URL's outcome lands, finishes in the same state as the
uninterrupted run. -/
theorem pause_resume_witness :
    runSeq (dstep (dstep (dstep (dstep (runSeq ⟨.running, ["a", "b"], [], []⟩ [true])
        .dispatch) .pause) (.complete false)) .resume) [true]
      = runSeq ⟨.running, ["a", "b"], [], []⟩ ([true] ++ false :: [true]) :=
  (pause_resume_same_terminal_counters ⟨.running, ["a", "b"], [], []⟩ rfl
    [true] [true] false).2.1

/-! ## Autoscaler lemmas -/

/-- C6: on every tick with `A` active jobs the desired worker count is
`A * ratio` clamped to the configured floor and ceiling; it is never below
the floor while at least one job is active, equals the floor when no job is
active, and with ratio 5 and floor 1 two active jobs give 10 while one gives
5. -/
theorem autoscaler_desired_clamped (wpj floorW ceilW : Nat) (hfc : floorW ≤ ceilW)
    (hc : 10 ≤ ceilW) :
    (∀ a, 1 ≤ a → floorW ≤ desiredWorkers a wpj floorW ceilW) ∧
    desiredWorkers 0 wpj floorW ceilW = floorW ∧
    desiredWorkers 2 5 1 ceilW = 10 ∧
    desiredWorkers 1 5 1 ceilW = 5 := by
  refine ⟨fun a ha => ?_, ?_, ?_, ?_⟩ <;> unfold desiredWorkers <;> omega

/-- C6 witness: with ratio 5, floor 1, ceiling 20 — no active job drives the
desired count to the floor and two active jobs give 10. -/
theorem autoscaler_desired_witness :
    desiredWorkers 0 5 1 20 = 1 ∧ desiredWorkers 2 5 1 20 = 10 :=
  ⟨(autoscaler_desired_clamped 5 1 20 (by decide) (by decide)).2.1,
   (autoscaler_desired_clamped 5 1 20 (by decide) (by decide)).2.2.1⟩

/-- C7: the reconciliation tick is idempotent — once the first tick's scaling
request has taken effect and the active-job count is unchanged, the next tick
issues no scaling request. -/
theorem tick_idempotent (active wpj floorW ceilW r : Nat) :
    tick active wpj floorW ceilW
        (applyScale r (tick active wpj floorW ceilW r)) = .noop := by
  have key : applyScale r (tick active wpj floorW ceilW r)
      = desiredWorkers active wpj floorW ceilW := by
    by_cases h1 : r < desiredWorkers active wpj floorW ceilW
    · rw [tick, if_pos h1]
      simp only [applyScale]
      omega
    · by_cases h2 : desiredWorkers active wpj floorW ceilW < r
      · rw [tick, if_neg h1, if_pos h2]
        simp only [applyScale]
        omega
      · rw [tick, if_neg h1, if_neg h2]
        simp only [applyScale]
        omega
  rw [key, tick, if_neg (lt_irrefl _), if_neg (lt_irrefl _)]

/-! ## Proxy retry lemmas -/

theorem fetchWithRetry_ok_step (oracle : Nat → Except String Upstream) (n i : Nat)
    (r : Upstream) (ho : oracle i = .ok r) : fetchWithRetry oracle n i = .ok r := by
  unfold fetchWithRetry
  rw [ho]

theorem fetchWithRetry_err_zero (oracle : Nat → Except String Upstream) (i : Nat)
    (e : String) (ho : oracle i = .error e) : fetchWithRetry oracle 0 i = .error e := by
  unfold fetchWithRetry
  rw [ho]

theorem fetchWithRetry_err_step (oracle : Nat → Except String Upstream) (n i : Nat)
    (e : String) (ho : oracle i = .error e) :
    fetchWithRetry oracle (n + 1) i = fetchWithRetry oracle n (i + 1) := by
  conv_lhs => rw [fetchWithRetry]
  rw [ho]

theorem fetchAttempts_zero (oracle : Nat → Except String Upstream) (i : Nat) :
    fetchAttempts oracle 0 i = 1 := rfl

theorem fetchAttempts_succ_ok (oracle : Nat → Except String Upstream) (n i : Nat)
    (r : Upstream) (ho : oracle i = .ok r) : fetchAttempts oracle (n + 1) i = 1 := by
  conv_lhs => rw [fetchAttempts]
  rw [ho]

theorem fetchAttempts_succ_err (oracle : Nat → Except String Upstream) (n i : Nat)
    (e : String) (ho : oracle i = .error e) :
    fetchAttempts oracle (n + 1) i = fetchAttempts oracle n (i + 1) + 1 := by
  conv_lhs => rw [fetchAttempts]
  rw [ho]

theorem fetchAttempts_le (oracle : Nat → Except String Upstream) (n i : Nat) :
    fetchAttempts oracle n i ≤ n + 1 := by
  induction n generalizing i with
  | zero => rw [fetchAttempts_zero]
  | succ n ih =>
      cases ho : oracle i with
      | ok r =>
          rw [fetchAttempts_succ_ok oracle n i r ho]
          omega
      | error e =>
          rw [fetchAttempts_succ_err oracle n i e ho]
          have := ih (i + 1)
          omega

theorem fetchWithRetry_ok_first (oracle : Nat → Except String Upstream) (n i : Nat)
    (r : Upstream) (h : fetchWithRetry oracle n i = .ok r) :
    ∃ j, i ≤ j ∧ j ≤ i + n ∧ oracle j = .ok r ∧
      ∀ k, i ≤ k → k < j → ∃ e, oracle k = .error e := by
  induction n generalizing i with
  | zero =>
      cases ho : oracle i with
      | ok r' =>
          rw [fetchWithRetry_ok_step oracle 0 i r' ho] at h
          injection h with h
          subst h
          exact ⟨i, le_rfl, by omega, ho, fun k hk1 hk2 => absurd hk2 (by omega)⟩
      | error e =>
          rw [fetchWithRetry_err_zero oracle i e ho] at h
          cases h
  | succ n ih =>
      cases ho : oracle i with
      | ok r' =>
          rw [fetchWithRetry_ok_step oracle (n + 1) i r' ho] at h
          injection h with h
          subst h
          exact ⟨i, le_rfl, by omega, ho, fun k hk1 hk2 => absurd hk2 (by omega)⟩
      | error e =>
          rw [fetchWithRetry_err_step oracle n i e ho] at h
          obtain ⟨j, hj1, hj2, hj3, hj4⟩ := ih (i + 1) h
          refine ⟨j, by omega, by omega, hj3, ?_⟩
          intro k hk1 hk2
          rcases Nat.eq_or_lt_of_le hk1 with rfl | hk
          · exact ⟨e, ho⟩
          · exact hj4 k (by omega) hk2

theorem fetchWithRetry_err_all (oracle : Nat → Except String Upstream) (n i : Nat)
    (e : String) (h : fetchWithRetry oracle n i = .error e) :
    oracle (i + n) = .error e ∧ fetchAttempts oracle n i = n + 1 := by
  induction n generalizing i with
  | zero =>
      cases ho : oracle i with
      | ok r =>
          rw [fetchWithRetry_ok_step oracle 0 i r ho] at h
          cases h
      | error e' =>
          rw [fetchWithRetry_err_zero oracle i e' ho] at h
          injection h with h
          subst h
          exact ⟨ho, fetchAttempts_zero oracle i⟩
  | succ n ih =>
      cases ho : oracle i with
      | ok r =>
          rw [fetchWithRetry_ok_step oracle (n + 1) i r ho] at h
          cases h
      | error e' =>
          rw [fetchWithRetry_err_step oracle n i e' ho] at h
          obtain ⟨h1, h2⟩ := ih (i + 1) h
          constructor
          · have harith : i + (n + 1) = (i + 1) + n := by omega
            rw [harith]
            exact h1
          · rw [fetchAttempts_succ_err oracle n i e' ho, h2]

theorem fetchWithRetry_error_of_all (oracle : Nat → Except String Upstream) (n i : Nat)
    (h : ∀ k, i ≤ k → k ≤ i + n → ∃ e, oracle k = .error e) :
    ∃ e, fetchWithRetry oracle n i = .error e := by
  induction n generalizing i with
  | zero =>
      obtain ⟨e, he⟩ := h i le_rfl (by omega)
      exact ⟨e, fetchWithRetry_err_zero oracle i e he⟩
  | succ n ih =>
      obtain ⟨e, he⟩ := h i le_rfl (by omega)
      obtain ⟨e', he'⟩ := ih (i + 1) (fun k hk1 hk2 => h k (by omega) (by omega))
      exact ⟨e', by rw [fetchWithRetry_err_step oracle n i e he]; exact he'⟩

/-- C9: `fetchWithRetry` performs at most `retries + 1` fetch attempts (so 3
with the default budget of 2), each attempt armed with the 10-second abort
timer; it returns the first successful response, and it rethrows the final
error only when every attempt of the exhausted budget failed. -/
theorem fetchWithRetry_bounded_attempts (oracle : Nat → Except String Upstream)
    (retries i : Nat) :
    fetchAttempts oracle retries i ≤ retries + 1 ∧
    timeoutMs = 10000 ∧
    (∀ r, fetchWithRetry oracle retries i = .ok r →
      ∃ j, i ≤ j ∧ j ≤ i + retries ∧ oracle j = .ok r ∧
        ∀ k, i ≤ k → k < j → ∃ e, oracle k = .error e) ∧
    (∀ e, fetchWithRetry oracle retries i = .error e →
      oracle (i + retries) = .error e ∧ fetchAttempts oracle retries i = retries + 1) :=
  ⟨fetchAttempts_le oracle retries i, rfl,
   fun r h => fetchWithRetry_ok_first oracle retries i r h,
   fun e h => fetchWithRetry_err_all oracle retries i e h⟩

/-- C9 witness: with every attempt failing, the default budget makes exactly
3 attempts and surfaces the last attempt's error. -/
theorem fetchWithRetry_witness :
    (fun _ => (Except.error "down" : Except String Upstream)) (0 + 2)
        = Except.error "down" ∧
    fetchAttempts (fun _ => Except.error "down") 2 0 = 2 + 1 :=
  (fetchWithRetry_bounded_attempts (fun _ => Except.error "down") 2 0).2.2.2 "down" rfl

/-- C8: the catch-all proxy handler never responds with an error HTTP status
of its own — with no backend configured it replies 200 with the configuration
JSON message, when every fetch attempt to the backend throws it replies 200
with `status: error` and `message: Unable to reach backend`, and on a
successful fetch the status it reports is the upstream's, not its own; the
root proxy handler behaves the same way at its two own-reply sites. -/
theorem proxy_no_own_error_status (oracle : Nat → Except String Upstream)
    (fetchRes : Except String Upstream) :
    catchAllHandler none oracle = ⟨200, some "error", some configMessage, none⟩ ∧
    (∀ url, (∀ k, k ≤ 2 → ∃ e, oracle k = .error e) →
      catchAllHandler (some url) oracle
        = ⟨200, some "error", some "Unable to reach backend", none⟩) ∧
    (∀ url r, fetchWithRetry oracle 2 0 = .ok r →
      (catchAllHandler (some url) oracle).httpStatus = r.httpStatus) ∧
    indexHandler none fetchRes = ⟨200, some "ok", some configMessage, none⟩ ∧
    (∀ url e, indexHandler (some url) (.error e)
      = ⟨200, some "error", some "Unable to reach backend", none⟩) := by
  refine ⟨rfl, ?_, ?_, rfl, fun url e => rfl⟩
  · intro url hall
    obtain ⟨e, he⟩ := fetchWithRetry_error_of_all oracle 2 0
      (fun k hk1 hk2 => hall k (by omega))
    simp [catchAllHandler, he]
  · intro url r hr
    simp [catchAllHandler, hr]

/-- C8 witness: with a configured backend and every fetch attempt throwing,
the catch-all handler replies 200 with the fixed unreachable-backend body. -/
theorem proxy_no_own_error_witness :
    catchAllHandler (some "b") (fun _ => Except.error "down")
      = ⟨200, some "error", some "Unable to reach backend", none⟩ :=
  (proxy_no_own_error_status (fun _ => Except.error "down")
    (Except.error "down")).2.1 "b" (fun _ _ => ⟨"down", rfl⟩)

/-! ## startScraping -/

/-- C10 counterexample: the response `\x7b task_id: "" \x7d` contains a
`task_id` field, yet `startScraping` rejects it (with the fixed default
message), refuting "resolves exactly when the data contains a `task_id`
field" — the code tests JavaScript truthiness, not presence. -/
theorem startScraping_counterexample :
    (RespData.mk (some "") none none).task_id.isSome = true ∧
    startScraping (RespData.mk (some "") none none)
      ≠ .ok (RespData.mk (some "") none none) ∧
    startScraping (RespData.mk (some "") none none) = .error defaultStartError := by
  refine ⟨rfl, ?_, rfl⟩
  intro h
  rw [show startScraping (RespData.mk (some "") none none)
      = .error defaultStartError from rfl] at h
  exact Except.noConfusion h

/-- C10 (amended): `startScraping` resolves with the response data exactly
when the data's `task_id` field is present and non-empty (JS-truthy); when it
is not, the call rejects with the first present-and-non-empty of the data's
`message` field, then its `error` field, else the fixed default message. -/
theorem startScraping_resolves_iff_truthy (d : RespData) :
    (startScraping d = .ok d ↔ jsTruthy d.task_id = true) ∧
    (∀ d', startScraping d = .ok d' → d' = d) ∧
    (jsTruthy d.task_id = false →
      startScraping d = .error (jsOr d.message (jsOr d.error defaultStartError))) := by
  cases h : jsTruthy d.task_id with
  | false =>
      refine ⟨?_, ?_, fun _ => ?_⟩
      · constructor
        · intro hok
          simp [startScraping, h] at hok
        · intro ht
          simp [h] at ht
      · intro d' hd'
        simp [startScraping, h] at hd'
      · simp [startScraping, h]
  | true =>
      refine ⟨?_, ?_, fun hf => ?_⟩
      · simp [startScraping, h]
      · intro d' hd'
        simp [startScraping, h] at hd'
        exact hd'.symm
      · simp [h] at hf

/-- C10 witness: a body with no `task_id` and `message: "boom"` is rejected
with `boom`. -/
theorem startScraping_amended_witness :
    startScraping (RespData.mk none (some "boom") none) = Except.error "boom" := by
  exact (startScraping_resolves_iff_truthy (RespData.mk none (some "boom") none)).2.2 rfl

end Scraper
